import Mathlib

/-!
# Verification of the teldrive byte-range file streaming engine

Shallow embedding of `src/services/file.service.go`: the range slicer
(`rangedParts`), the part streamer (`streamFilePart` / `chunk`) and the
stream orchestrator (`GetFileStream`), together with theorems settling the
frozen claims about them.

Conventions of the embedding:
* Go `int64` values are embedded as `Nat`.  Every quantity involved
  (offsets, sizes, counters) is non-negative on all code paths the claims
  exercise; theorem hypotheses keep all values inside the range where the
  Go `float64` round trip through `math.Ceil` / `math.Floor` is exact
  (sizes far below `2^53`), so `ceilDiv` / `/` / `%` below agree with the
  Go arithmetic.
* Byte strings are `List Nat`.
* A Go slice-bounds panic is modelled by `Option.none` (for `rangedParts`)
  or by a `Bool` "panicked" flag (for the streaming loop), so that the
  trace of events performed before the panic is kept.
* The remote blob API (`upload.getFile` behind `chunk`) is an oracle
  `fetch : Nat → List Nat` mapping an offset to the returned bytes; the Go
  code discards `chunk`'s error (`r, _ := chunk(...)`), so a failed fetch
  is indistinguishable from an empty result, exactly as in the source.
-/

namespace Teldrive

/-- Exact integer form of Go's `int64(math.Ceil(float64 a / float64 b))`
for non-negative `a` and positive `b`. -/
def ceilDiv (a b : Nat) : Nat := (a + b - 1) / b

/-- One observable action of the part streamer: a remote chunk fetch at a
byte offset, or a write of trimmed bytes into the pipe. -/
inductive Ev where
  | fetch (offset : Nat)
  | write (bytes : List Nat)
deriving DecidableEq, Repr

/-- Go slice expression `r[a:b]`: `none` models the bounds panic. -/
def goSliceFT (r : List Nat) (a b : Nat) : Option (List Nat) :=
  if a ≤ b ∧ b ≤ r.length then some ((r.take b).drop a) else none

/-- Go slice expression `r[a:]`: `none` models the bounds panic. -/
def goSliceFrom (r : List Nat) (a : Nat) : Option (List Nat) :=
  if a ≤ r.length then some (r.drop a) else none

/-- Go slice expression `r[:b]`: `none` models the bounds panic. -/
def goSliceTo (r : List Nat) (b : Nat) : Option (List Nat) :=
  if b ≤ r.length then some (r.take b) else none

/-- The `for` loop of `streamFilePart` (file.service.go:500-526).
Arguments after the fixed parameters: remaining fuel, `currentPart`,
`offset`.  The loop body fetches, breaks on an empty result, trims
(`r[firstPartCut:lastPartCut]`, `r[firstPartCut:]`, `r[:lastPartCut]`),
writes, and advances; the fuel only bounds the recursion and is chosen
large enough (`partCount + 1`) never to be exhausted before the loop's own
break conditions fire.  The returned `Bool` is true when a slice
expression panicked; the event list records everything performed before
that point. -/
def streamLoop (fetch : Nat → List Nat) (fPC lPC N U : Nat) :
    Nat → Nat → Nat → List Ev × Bool
  | 0, _, _ => ([], false)
  | fuel + 1, c, offset =>
    let r := fetch offset
    if r.length = 0 then ([Ev.fetch offset], false)
    else
      match (if N = 1 then goSliceFT r fPC lPC
             else if c = 1 then goSliceFrom r fPC
             else if c = N then goSliceTo r lPC
             else some r) with
      | none => ([Ev.fetch offset], true)
      | some w =>
        if c + 1 > N then ([Ev.fetch offset, Ev.write w], false)
        else
          let rest := streamLoop fetch fPC lPC N U fuel (c + 1) (offset + U)
          (Ev.fetch offset :: Ev.write w :: rest.1, rest.2)

/-- `streamFilePart` (file.service.go:490-529) over one part, with local
range `[start, end_]` and transfer unit `chunkSize` (the caller passes
`1024*1024`).  Mirrors the prologue exactly:
`offset := start - start%chunkSize`, `firstPartCut := start - offset`,
`lastPartCut := end%chunkSize + 1`,
`partCount := ceil((end+1)/chunkSize) - floor(offset/chunkSize)`. -/
def streamFilePart (fetch : Nat → List Nat) (start end_ chunkSize : Nat) :
    List Ev × Bool :=
  let offset := start - start % chunkSize
  let firstPartCut := start - offset
  let lastPartCut := end_ % chunkSize + 1
  let partCount := ceilDiv (end_ + 1) chunkSize - offset / chunkSize
  streamLoop fetch firstPartCut lastPartCut partCount chunkSize
    (partCount + 1) 1 offset

/-- The byte payloads of the write events of a trace, in order. -/
def writesOf : List Ev → List (List Nat)
  | [] => []
  | Ev.write w :: t => w :: writesOf t
  | Ev.fetch _ :: t => writesOf t

/-- All bytes written into the pipe by a trace, concatenated. -/
def emitted (t : List Ev) : List Nat := (writesOf t).flatten

/-- The offsets of the fetch events of a trace, in order. -/
def fetchesOf : List Ev → List Nat
  | [] => []
  | Ev.write _ :: t => fetchesOf t
  | Ev.fetch o :: t => o :: fetchesOf t

/-- `types.Part` as used by the streaming path: the backing document's
bytes stand in for its location handle, `size` is `document.Size`, and
`start` / `end_` are the request-scoped `Start` / `End` trims. -/
structure Part where
  content : List Nat
  size : Nat
  start : Nat
  end_ : Nat
deriving DecidableEq, Repr

/-- `getParts` (file.service.go:353-398) output for a file whose backing
documents hold `contents`: each part gets `Start: 0`, `End: size-1`,
`Size: document.Size`. -/
def mkParts (contents : List (List Nat)) : List Part :=
  contents.map fun c => { content := c, size := c.length, start := 0, end_ := c.length - 1 }

/-- `partsToDownload[len(partsToDownload)-1].End = e` of `rangedParts`. -/
def setLastEnd : List Part → Nat → List Part
  | [], _ => []
  | [p], e => [{ p with end_ := e }]
  | p :: q :: ps, e => p :: setLastEnd (q :: ps) e

/-- `rangedParts` (file.service.go:531-544).
`chunkSize := parts[0].Size`;
`startPartNumber := max(ceil(start/chunkSize)-1, 0)` (the `max` with 0 and
the `-1` collapse to truncated `Nat` subtraction);
`endPartNumber := ceil(end/chunkSize)`;
the slice `parts[startPartNumber:endPartNumber]` and the subsequent
`partsToDownload[0]` indexing panic — modelled as `none` — when the bounds
are violated or the slice is empty.  When the slice has exactly one
element both trims land on that element. -/
def rangedParts (parts : List Part) (start end_ : Nat) : Option (List Part) :=
  match parts with
  | [] => none
  | p0 :: rest =>
    let chunkSize := p0.size
    let startPartNumber := ceilDiv start chunkSize - 1
    let endPartNumber := ceilDiv end_ chunkSize
    if startPartNumber ≤ endPartNumber ∧ endPartNumber ≤ (p0 :: rest).length then
      match ((p0 :: rest).take endPartNumber).drop startPartNumber with
      | [] => none
      | q :: qs =>
        some (setLastEnd ({ q with start := start % chunkSize } :: qs) (end_ % chunkSize))
    else none

/-- The remote blob API answering a `upload.getFile` request faithfully:
the bytes of the backing document from `offset`, at most `limit` of them
(short only at end of document).  This is the "every remote fetch returns
the requested bytes" assumption of the spec. -/
def honestFetch (content : List Nat) (limit : Nat) : Nat → List Nat :=
  fun offset => (content.drop offset).take limit

/-- The producer goroutine of `GetFileStream` (file.service.go:334-339):
`streamFilePart` over each selected part strictly in order, transfer unit
`1024*1024`; the traces concatenate. -/
def pipelineTrace (parts : List Part) (U : Nat) : List Ev :=
  (parts.map fun p => (streamFilePart (honestFetch p.content U) p.start p.end_ U).1).flatten

/-- The bytes the producer writes into the pipe, in order. -/
def pipelineBytes (parts : List Part) (U : Nat) : List Nat :=
  emitted (pipelineTrace parts U)

/-- The `[start, end_]` slice (inclusive) of a logical file given as the
concatenation of its parts' bytes — the spec's reference value. -/
def logicalSlice (contents : List (List Nat)) (start end_ : Nat) : List Nat :=
  (contents.flatten.drop start).take (end_ - start + 1)

end Teldrive

namespace Teldrive



/-- The transfer unit `GetFileStream` passes to `streamFilePart`
(file.service.go:337): `1024*1024`. -/
def transferUnit : Nat := 1048576

/-- The file descriptor (`schemas.FileOutFull`) as the streaming path
reads it: display name, mime type, the stored `Size`, and the bytes of
the backing parts (resolved by `getParts`). -/
structure FileMeta where
  name : String
  mimeType : String
  size : Nat
  partContents : List (List Nat)
deriving DecidableEq, Repr

/-- `http.Header` with `Set` semantics: replace an existing key, else
append. -/
def setHeader (hs : List (String × String)) (k v : String) : List (String × String) :=
  if hs.any (fun p => p.1 == k) then hs.map (fun p => if p.1 == k then (k, v) else p)
  else hs ++ [(k, v)]

/-- Header lookup. -/
def getHeader (hs : List (String × String)) (k : String) : Option String :=
  (hs.find? (fun p => p.1 == k)).map (fun p => p.2)

/-- Whether a header key is present. -/
def hasHeader (hs : List (String × String)) (k : String) : Bool :=
  hs.any (fun p => p.1 == k)

/-- The observable outcome of one `GetFileStream` request.
`body` holds the file bytes delivered to the client (the text payload of
an `http.Error` response is not file content and is not counted).
`workloadDelta` is the net change of the selected client's `Workload`
counter once the handler (and, for the happy path, its deferred
decrement) has finished.  `producerTrace` is the event sequence of the
producer goroutine; `panicked` records a Go runtime panic (recovered by
the framework as a 500-class response). -/
structure Response where
  status : Nat
  headers : List (String × String)
  body : List Nat
  workloadDelta : Int
  producerTrace : List Ev
  panicked : Bool
deriving DecidableEq, Repr

/-- `http.Error(w, msg, status)`: sets `Content-Type: text/plain` and
`X-Content-Type-Options: nosniff` on whatever headers are present and
writes the message with the given status.  No file bytes are written. -/
def httpErrorResp (delta : Int) (status : Nat) (hs : List (String × String)) : Response :=
  { status := status
    headers := setHeader (setHeader hs "Content-Type" "text/plain; charset=utf-8")
      "X-Content-Type-Options" "nosniff"
    body := []
    workloadDelta := delta
    producerTrace := []
    panicked := false }

/-- Modelled from the spec: the byte-range header parser
(`range_parser.Parse`, an external library whose sources are not part of
this repository).  Per the spec, a `Range` header is parsed "against
totalSize" into a `ByteRange` with `0 ≤ start ≤ end < totalSize`, and a
malformed or out-of-bounds range is a validation error ("4xx on
malformed/out-of-bounds range"), here `none`. -/
def parseRange (size s e : Nat) : Option (Nat × Nat) :=
  if s ≤ e ∧ e < size then some (s, e) else none

/-- The tail of `GetFileStream` (file.service.go:315-350) once `start`
and `end` are fixed: sets `Content-Type`, `Content-Length` and
`Content-Disposition`, resolves and slices the parts, launches the
producer and, for non-HEAD requests, copies `contentLength` bytes out of
the pipe.  A `rangedParts` panic (modelled `none`) aborts before the
producer starts: the framework recovers it as a 500 and the workload
decrement — deferred only at the very end of the function — was never
registered. -/
def finishStream (multiClient isHead : Bool) (file : FileMeta)
    (hs : List (String × String)) (status start end_ : Nat) : Response :=
  let contentLength := end_ - start + 1
  let h2 := setHeader hs "Content-Type" file.mimeType
  let h3 := setHeader h2 "Content-Length" (toString contentLength)
  let h4 := setHeader h3 "Content-Disposition"
    ("inline; filename=\"" ++ file.name ++ "\"")
  match rangedParts (mkParts file.partContents) start end_ with
  | none =>
    { status := 500, headers := h4, body := [], producerTrace := [], panicked := true
      workloadDelta := if multiClient then 1 else 0 }
  | some sel =>
    let trace := pipelineTrace sel transferUnit
    { status := status
      headers := h4
      body := if isHead then [] else (emitted trace).take contentLength
      workloadDelta := 0
      producerTrace := trace
      panicked := false }

/-- `GetFileStream` (file.service.go:258-351).  In multi-client mode the
selected bot client's `Workload` is incremented immediately; the matching
decrement is deferred only at the end of the function body, so every
earlier `return` leaves the counter incremented (`workloadDelta = 1`).
`authOk` is the outcome of `GetAuthClient` (single-client mode only);
`file?` the cached `GetFileByID` lookup; `rangeHdr` the raw requested
range, handed to the spec-modelled parser.  The metadata and channel
collaborators behind `getParts` are assumed available. -/
def getFileStreamModel (multiClient isHead authOk : Bool)
    (file? : Option FileMeta) (rangeHdr : Option (Nat × Nat)) : Response :=
  let inc : Int := if multiClient then 1 else 0
  if ¬multiClient ∧ ¬authOk then httpErrorResp 0 500 []
  else
    match file? with
    | none => httpErrorResp inc 400 []
    | some file =>
      let h0 := setHeader [] "Accept-Ranges" "bytes"
      match rangeHdr with
      | none => finishStream multiClient isHead file h0 200 0 (file.size - 1)
      | some (s, e) =>
        match parseRange file.size s e with
        | none => httpErrorResp inc 400 h0
        | some (s, e) =>
          let h1 := setHeader h0 "Content-Range"
            ("bytes " ++ toString s ++ "-" ++ toString e ++ "/" ++ toString file.size)
          finishStream multiClient isHead file h1 206 s e

/-- Whether an event is a fetch. -/
def isFetch : Ev → Bool
  | Ev.fetch _ => true
  | Ev.write _ => false

/-- The number of remote fetches a HEAD request actually performs: the
producer goroutine is launched unconditionally, `io.Pipe` is unbuffered
and a HEAD request never reads from it, so the producer executes exactly
the prefix of its trace up to its first (forever-blocking) `Write` — all
of whose events are fetches. -/
def headFetchCount (t : List Ev) : Nat := (t.takeWhile isFetch).length

/-- Producer event for the pipe-aware variant of the streamer: each write
additionally records the error status `writer.Write` returned — a value
the Go code discards. -/
inductive EvW where
  | fetch (offset : Nat)
  | write (bytes : List Nat) (failed : Bool)
deriving DecidableEq, Repr

/-- The `streamFilePart` loop with the pipe's responses made explicit:
`werr i` tells whether the `i`-th `writer.Write` call reports an error
(e.g. `io.ErrClosedPipe`).  The control flow is exactly `streamLoop`'s:
the source discards the result of `writer.Write(r)` (file.service.go:516),
so the loop proceeds identically whatever the pipe answers. -/
def streamLoopW (fetch : Nat → List Nat) (werr : Nat → Bool) (fPC lPC N U : Nat) :
    Nat → Nat → Nat → Nat → List EvW × Bool
  | 0, _, _, _ => ([], false)
  | fuel + 1, c, offset, wi =>
    let r := fetch offset
    if r.length = 0 then ([EvW.fetch offset], false)
    else
      match (if N = 1 then goSliceFT r fPC lPC
             else if c = 1 then goSliceFrom r fPC
             else if c = N then goSliceTo r lPC
             else some r) with
      | none => ([EvW.fetch offset], true)
      | some w =>
        if c + 1 > N then ([EvW.fetch offset, EvW.write w (werr wi)], false)
        else
          let rest := streamLoopW fetch werr fPC lPC N U fuel (c + 1) (offset + U) (wi + 1)
          (EvW.fetch offset :: EvW.write w (werr wi) :: rest.1, rest.2)

/-- `streamFilePart` with the pipe's write results recorded. -/
def streamFilePartW (fetch : Nat → List Nat) (werr : Nat → Bool)
    (start end_ chunkSize : Nat) : List EvW × Bool :=
  let offset := start - start % chunkSize
  let firstPartCut := start - offset
  let lastPartCut := end_ % chunkSize + 1
  let partCount := ceilDiv (end_ + 1) chunkSize - offset / chunkSize
  streamLoopW fetch werr firstPartCut lastPartCut partCount chunkSize
    (partCount + 1) 1 offset 0

/-- Whether an `EvW` event is a fetch. -/
def isFetchW : EvW → Bool
  | EvW.fetch _ => true
  | _ => false

/-- Whether a trace issues some fetch after a write that reported an
error. -/
def hasFetchAfterFailedWrite : List EvW → Bool
  | [] => false
  | EvW.write _ true :: t => t.any isFetchW || hasFetchAfterFailedWrite t
  | _ :: t => hasFetchAfterFailedWrite t

/-- The initial aligned offset of `streamFilePart`:
`offset := start - start%chunkSize = chunkSize * floor(start/chunkSize)`. -/
def blockOffset (start U k : Nat) : Nat := (start - start % U) + k * U

/-- `partCount` as `streamFilePart` computes it:
`ceil((end+1)/chunkSize) - floor(offset/chunkSize)`. -/
def partCountOf (start end_ U : Nat) : Nat :=
  ceilDiv (end_ + 1) U - (start - start % U) / U

/-- The trim the loop applies to the `k`-th fetched block (0-based;
`currentPart = k + 1`): both cuts when the block is the only one, the
leading cut on the first, the trailing cut on the last, none in the
interior. -/
def trimBlock (fPC lPC N k : Nat) (r : List Nat) : List Nat :=
  if N = 1 then (r.take lPC).drop fPC
  else if k = 0 then r.drop fPC
  else if k = N - 1 then r.take lPC
  else r

/-- The event trace of a fully successful run of the loop over blocks
`j, j+1, ..., j+n-1`: for each block, its aligned fetch followed by the
write of its trimmed bytes. -/
def expectedTrace (fetch : Nat → List Nat) (fPC lPC N U o0 : Nat) :
    Nat → Nat → List Ev
  | _, 0 => []
  | j, n + 1 =>
    Ev.fetch (o0 + j * U) ::
      Ev.write (trimBlock fPC lPC N j (fetch (o0 + j * U))) ::
        expectedTrace fetch fPC lPC N U o0 (j + 1) n

/-- Block `k` of a part stream is well-formed for the run: non-empty,
and long enough for the cut applied to it (the leading cut if it is the
first block, the trailing cut if it is the last). -/
def okBlock (fetch : Nat → List Nat) (start end_ U k : Nat) : Prop :=
  0 < (fetch (blockOffset start U k)).length ∧
  (k = 0 → start % U ≤ (fetch (blockOffset start U k)).length) ∧
  (k = partCountOf start end_ U - 1 →
    end_ % U + 1 ≤ (fetch (blockOffset start U k)).length)

instance (fetch : Nat → List Nat) (start end_ U k : Nat) :
    Decidable (okBlock fetch start end_ U k) := by
  unfold okBlock; infer_instance

end Teldrive

namespace Teldrive

/-- Unfolding of one iteration of the loop. -/
lemma streamLoop_succ (fetch : Nat → List Nat) (fPC lPC N U f c offset : Nat) :
    streamLoop fetch fPC lPC N U (f + 1) c offset =
      (let r := fetch offset
       if r.length = 0 then ([Ev.fetch offset], false)
       else
         match (if N = 1 then goSliceFT r fPC lPC
                else if c = 1 then goSliceFrom r fPC
                else if c = N then goSliceTo r lPC
                else some r) with
         | none => ([Ev.fetch offset], true)
         | some w =>
           if c + 1 > N then ([Ev.fetch offset, Ev.write w], false)
           else
             let rest := streamLoop fetch fPC lPC N U f (c + 1) (offset + U)
             (Ev.fetch offset :: Ev.write w :: rest.1, rest.2)) := rfl

/-- `ceil((a+1)/U) = floor(a/U) + 1` for positive `U`. -/
lemma ceilDiv_succ (a U : Nat) (hU : 0 < U) : ceilDiv (a + 1) U = a / U + 1 := by
  have h : a + 1 + U - 1 = a + U := by omega
  rw [ceilDiv, h, Nat.add_div_right _ hU]

/-- The initial aligned offset is a multiple of the transfer unit. -/
lemma sub_mod_eq_mul_div (a U : Nat) : a - a % U = U * (a / U) := by
  have h := Nat.div_add_mod a U
  omega

/-- Dividing the initial aligned offset by `U` recovers `floor(start/U)`. -/
lemma sub_mod_div (a U : Nat) (hU : 0 < U) : (a - a % U) / U = a / U := by
  rw [sub_mod_eq_mul_div, Nat.mul_div_cancel_left _ hU]

/-- The loop's `partCount` in quotient form. -/
lemma partCountOf_eq (start end_ U : Nat) (hU : 0 < U) :
    partCountOf start end_ U = end_ / U + 1 - start / U := by
  rw [partCountOf, ceilDiv_succ _ _ hU, sub_mod_div _ _ hU]

/-- A non-degenerate local range spans at least one block. -/
lemma partCountOf_pos (start end_ U : Nat) (hU : 0 < U) (hse : start ≤ end_) :
    1 ≤ partCountOf start end_ U := by
  rw [partCountOf_eq _ _ _ hU]
  have := Nat.div_le_div_right (c := U) hse
  omega

/-- With a single expected block, the leading cut never exceeds the
trailing cut: `start` and `end_` share the block, so
`start % U ≤ end_ % U`. -/
lemma fPC_le_lPC_of_one (start end_ U : Nat) (hU : 0 < U) (hse : start ≤ end_)
    (h1 : partCountOf start end_ U = 1) : start % U ≤ end_ % U + 1 := by
  rw [partCountOf_eq _ _ _ hU] at h1
  have hd : start / U ≤ end_ / U := Nat.div_le_div_right hse
  have hq : start / U = end_ / U := by omega
  have hA := Nat.div_add_mod start U
  have hB := Nat.div_add_mod end_ U
  rw [hq] at hA
  omega

/-- Characterization of a fully successful run of the loop: starting at
`currentPart = c` with enough fuel and every remaining block well-formed,
it performs exactly the fetch-then-write pairs of blocks
`c-1, ..., N-1` and reports no panic. -/
lemma streamLoop_run (fetch : Nat → List Nat) (fPC lPC N U o0 : Nat)
    (hfl : N = 1 → fPC ≤ lPC)
    (hok : ∀ k, k < N →
      0 < (fetch (o0 + k * U)).length ∧
      (k = 0 → fPC ≤ (fetch (o0 + k * U)).length) ∧
      (k = N - 1 → lPC ≤ (fetch (o0 + k * U)).length)) :
    ∀ fuel c, 1 ≤ c → c ≤ N → N + 1 - c ≤ fuel →
      streamLoop fetch fPC lPC N U fuel c (o0 + (c - 1) * U) =
        (expectedTrace fetch fPC lPC N U o0 (c - 1) (N + 1 - c), false) := by
  intro fuel
  induction fuel with
  | zero => intro c hc1 hcN hfuel; omega
  | succ f ih =>
    intro c hc1 hcN hfuel
    obtain ⟨hpos, hfirst, hlast⟩ := hok (c - 1) (by omega)
    have hr0 : ¬(fetch (o0 + (c - 1) * U)).length = 0 := by omega
    rw [streamLoop_succ]
    simp only [hr0, if_false]
    by_cases hN1 : N = 1
    · -- single block: both cuts, loop ends after the first iteration
      have hc : c = 1 := by omega
      subst hc; subst hN1
      have hFT : goSliceFT (fetch (o0 + (1 - 1) * U)) fPC lPC =
          some (((fetch (o0 + (1 - 1) * U)).take lPC).drop fPC) := by
        rw [goSliceFT, if_pos ⟨hfl rfl, hlast rfl⟩]
      simp only [if_pos rfl, hFT]
      have h2 : (1 : Nat) + 1 > 1 := by omega
      simp only [if_pos h2]
      simp [expectedTrace, trimBlock]
    · by_cases hc1' : c = 1
      · -- first of several blocks: leading cut, then recurse
        subst hc1'
        have hN2 : 2 ≤ N := by omega
        have hFrom : goSliceFrom (fetch (o0 + (1 - 1) * U)) fPC =
            some ((fetch (o0 + (1 - 1) * U)).drop fPC) := by
          rw [goSliceFrom, if_pos (hfirst (by omega))]
        simp only [if_neg hN1, if_pos rfl, hFrom]
        have h2 : ¬((1 : Nat) + 1 > N) := by omega
        simp only [if_neg h2]
        have hrec := ih 2 (by omega) (by omega) (by omega)
        have ho : o0 + (1 - 1) * U + U = o0 + (2 - 1) * U := by omega
        rw [ho, hrec]
        have hn : N + 1 - 1 = (N + 1 - 2) + 1 := by omega
        rw [hn]
        simp only [expectedTrace, trimBlock, if_neg hN1, if_pos rfl]
        norm_num
      · by_cases hcN' : c = N
        · -- last of several blocks: trailing cut, loop ends
          have hTo : goSliceTo (fetch (o0 + (c - 1) * U)) lPC =
              some ((fetch (o0 + (c - 1) * U)).take lPC) := by
            rw [goSliceTo, if_pos (hlast (by omega))]
          simp only [if_neg hN1, if_neg hc1', if_pos hcN', hTo]
          have h2 : c + 1 > N := by omega
          simp only [if_pos h2]
          have hn : N + 1 - c = 1 := by omega
          rw [hn]
          have hk0 : ¬(c - 1 = 0) := by omega
          have hk0' : ¬(N - 1 = 0) := by omega
          have hkN : c - 1 = N - 1 := by omega
          simp [expectedTrace, trimBlock, hN1, hk0, hk0', hkN]
        · -- interior block: no cut, recurse
          have hmid : (if N = 1 then goSliceFT (fetch (o0 + (c - 1) * U)) fPC lPC
              else if c = 1 then goSliceFrom (fetch (o0 + (c - 1) * U)) fPC
              else if c = N then goSliceTo (fetch (o0 + (c - 1) * U)) lPC
              else some (fetch (o0 + (c - 1) * U))) =
                some (fetch (o0 + (c - 1) * U)) := by
            simp only [if_neg hN1, if_neg hc1', if_neg hcN']
          simp only [hmid]
          have h2 : ¬(c + 1 > N) := by omega
          simp only [if_neg h2]
          have hrec := ih (c + 1) (by omega) (by omega) (by omega)
          have ho : o0 + (c - 1) * U + U = o0 + (c + 1 - 1) * U := by
            have : c + 1 - 1 = (c - 1) + 1 := by omega
            rw [this]; ring
          rw [ho, hrec]
          have hn : N + 1 - c = (N + 1 - (c + 1)) + 1 := by omega
          rw [hn]
          have hk0 : ¬(c - 1 = 0) := by omega
          have hkN : ¬(c - 1 = N - 1) := by omega
          simp only [expectedTrace, trimBlock, if_neg hN1, if_neg hk0, if_neg hkN]
          have hj : c - 1 + 1 = c + 1 - 1 := by omega
          rw [hj]

/-- Characterization of a run stopped by an empty fetch at block `j`:
blocks before `j` stream normally, the fetch at block `j` returns
nothing, and the loop breaks silently — no panic, no further events. -/
lemma streamLoop_stop (fetch : Nat → List Nat) (fPC lPC N U o0 j : Nat)
    (hjN : j < N)
    (hok : ∀ k, k < j →
      0 < (fetch (o0 + k * U)).length ∧
      (k = 0 → fPC ≤ (fetch (o0 + k * U)).length))
    (hempty : (fetch (o0 + j * U)).length = 0) :
    ∀ fuel c, 1 ≤ c → c ≤ j + 1 → N + 1 - c ≤ fuel →
      streamLoop fetch fPC lPC N U fuel c (o0 + (c - 1) * U) =
        (expectedTrace fetch fPC lPC N U o0 (c - 1) (j + 1 - c) ++
          [Ev.fetch (o0 + j * U)], false) := by
  intro fuel
  induction fuel with
  | zero => intro c hc1 hcj hfuel; omega
  | succ f ih =>
    intro c hc1 hcj hfuel
    by_cases hcj' : c = j + 1
    · -- the empty fetch: the loop breaks at once
      subst hcj'
      rw [streamLoop_succ]
      have hj' : j + 1 - 1 = j := by omega
      rw [hj']
      simp only [hempty, if_pos rfl]
      have hn : j + 1 - (j + 1) = 0 := by omega
      rw [hn]
      simp [expectedTrace]
    · -- a normal block strictly before `j`
      have hcj2 : c ≤ j := by omega
      have hN1 : ¬N = 1 := by omega
      have hcN : ¬c = N := by omega
      obtain ⟨hpos, hfirst⟩ := hok (c - 1) (by omega)
      have hr0 : ¬(fetch (o0 + (c - 1) * U)).length = 0 := by omega
      rw [streamLoop_succ]
      simp only [hr0, if_false]
      by_cases hc1' : c = 1
      · subst hc1'
        have hFrom : goSliceFrom (fetch (o0 + (1 - 1) * U)) fPC =
            some ((fetch (o0 + (1 - 1) * U)).drop fPC) := by
          rw [goSliceFrom, if_pos (hfirst (by omega))]
        simp only [if_neg hN1, if_pos rfl, hFrom]
        have h2 : ¬((1 : Nat) + 1 > N) := by omega
        simp only [if_neg h2]
        have hrec := ih 2 (by omega) (by omega) (by omega)
        have ho : o0 + (1 - 1) * U + U = o0 + (2 - 1) * U := by omega
        rw [ho, hrec]
        have hn : j + 1 - 1 = (j + 1 - 2) + 1 := by omega
        rw [hn]
        simp only [expectedTrace, trimBlock, if_neg hN1, if_pos rfl]
        norm_num
      · have hmid : (if N = 1 then goSliceFT (fetch (o0 + (c - 1) * U)) fPC lPC
            else if c = 1 then goSliceFrom (fetch (o0 + (c - 1) * U)) fPC
            else if c = N then goSliceTo (fetch (o0 + (c - 1) * U)) lPC
            else some (fetch (o0 + (c - 1) * U))) =
              some (fetch (o0 + (c - 1) * U)) := by
          simp only [if_neg hN1, if_neg hc1', if_neg hcN]
        simp only [hmid]
        have h2 : ¬(c + 1 > N) := by omega
        simp only [if_neg h2]
        have hrec := ih (c + 1) (by omega) (by omega) (by omega)
        have ho : o0 + (c - 1) * U + U = o0 + (c + 1 - 1) * U := by
          have : c + 1 - 1 = (c - 1) + 1 := by omega
          rw [this]; ring
        rw [ho, hrec]
        have hn : j + 1 - c = (j + 1 - (c + 1)) + 1 := by omega
        rw [hn]
        have hk0 : ¬(c - 1 = 0) := by omega
        have hkN : ¬(c - 1 = N - 1) := by omega
        simp only [expectedTrace, trimBlock, if_neg hN1, if_neg hk0, if_neg hkN]
        have hj : c - 1 + 1 = c + 1 - 1 := by omega
        rw [hj]
        simp

/-- `streamFilePart` in terms of the named quantities. -/
lemma streamFilePart_eq (fetch : Nat → List Nat) (start end_ U : Nat) :
    streamFilePart fetch start end_ U =
      streamLoop fetch (start % U) (end_ % U + 1) (partCountOf start end_ U) U
        (partCountOf start end_ U + 1) 1 (start - start % U) := by
  have h : start - (start - start % U) = start % U := by
    have := Nat.mod_le start U
    omega
  show streamLoop fetch (start - (start - start % U)) (end_ % U + 1)
      (ceilDiv (end_ + 1) U - (start - start % U) / U) U
      ((ceilDiv (end_ + 1) U - (start - start % U) / U) + 1) 1
      (start - start % U) = _
  rw [h]
  rfl

/-- Each window of the expected trace fetches once per block. -/
lemma fetchesOf_expectedTrace (fetch : Nat → List Nat) (fPC lPC N U o0 : Nat) :
    ∀ n j, (fetchesOf (expectedTrace fetch fPC lPC N U o0 j n)).length = n := by
  intro n
  induction n with
  | zero => intro j; simp [expectedTrace, fetchesOf]
  | succ m ih => intro j; simp [expectedTrace, fetchesOf, ih (j + 1)]

/-- The write events of a concatenation. -/
lemma writesOf_append (a b : List Ev) :
    writesOf (a ++ b) = writesOf a ++ writesOf b := by
  induction a with
  | nil => simp [writesOf]
  | cons e t ih => cases e <;> simp [writesOf, ih]

/-- A trim never lengthens a block. -/
lemma trimBlock_length_le (fPC lPC N k : Nat) (r : List Nat) :
    (trimBlock fPC lPC N k r).length ≤ r.length := by
  rw [trimBlock]
  split
  · simp
  · split
    · simp
    · split
      · simp
      · exact Nat.le_refl _

/-- If every block of the window is at most `U` long, the bytes emitted
over the window total at most `n * U`. -/
lemma emitted_expectedTrace_le (fetch : Nat → List Nat) (fPC lPC N U o0 : Nat) :
    ∀ n j, (∀ k, j ≤ k → k < j + n → (fetch (o0 + k * U)).length ≤ U) →
      (emitted (expectedTrace fetch fPC lPC N U o0 j n)).length ≤ n * U := by
  intro n
  induction n with
  | zero => intro j _; simp [expectedTrace, emitted, writesOf]
  | succ m ih =>
    intro j hk
    have hhead : (trimBlock fPC lPC N j (fetch (o0 + j * U))).length ≤ U :=
      Nat.le_trans (trimBlock_length_le _ _ _ _ _) (hk j (Nat.le_refl _) (by omega))
    have htail := ih (j + 1) (fun k h1 h2 => hk k (by omega) (by omega))
    simp only [expectedTrace, emitted, writesOf, List.flatten_cons, List.length_append]
    have : (m + 1) * U = U + m * U := by ring
    rw [this]
    exact Nat.add_le_add hhead htail

/-- Claim C1 (code bug): for the file with two uniform parts `[10,11]`
and `[12,13]` (chunk size 2, total size 4) and the valid range `[0,2]`,
the streaming pipeline emits `[10]` — one byte — while the logical slice
is `[10,11,12]` of length `end-start+1 = 3`.  `rangedParts` computes
`endPartNumber = ceil(end/chunkSize) = 1` instead of
`ceil((end+1)/chunkSize) = 2`, drops the part containing byte 2, and
rewrites part 0's `End` to `2 % 2 = 0`. -/
theorem C1_pipeline_bytes_mismatch :
    (rangedParts (mkParts [[10, 11], [12, 13]]) 0 2).map (fun sel => pipelineBytes sel 1048576) =
      some [10] ∧
    logicalSlice [[10, 11], [12, 13]] 0 2 = [10, 11, 12] ∧
    some [10] ≠ some [10, 11, 12] := by
  refine ⟨by decide, by decide, by decide⟩

set_option maxRecDepth 10000 in
/-- Claim C2 (code bug): with chunk size 1000 and parts sized
`[1000,1000,500]`, the concrete example of the claim holds (range
`[1500,2200]` selects parts 1 and 2 with trims `500/999` and `0/200`),
but the general rule does not: `rangedParts` computes
`endPartNumber = ceil(end/chunkSize)`, not `ceil((end+1)/chunkSize)`, so
for the valid range `[0,0]` it takes the empty slice `parts[0:0]` and
panics on `partsToDownload[0]` (modelled `none`) instead of selecting
part 0 trimmed to `localStart = 0`, `localEnd = 0`. -/
theorem C2_rangedParts_endIndex_bug :
    rangedParts (mkParts [List.replicate 1000 1, List.replicate 1000 2, List.replicate 500 3])
        1500 2200 =
      some [{ content := List.replicate 1000 2, size := 1000, start := 500, end_ := 999 },
            { content := List.replicate 500 3, size := 500, start := 0, end_ := 200 }] ∧
    rangedParts (mkParts [List.replicate 1000 1, List.replicate 1000 2, List.replicate 500 3])
        0 0 = none := by
  constructor
  · rfl
  · rfl

/-- Claim C5 (code bug): for the single-part file `[10,11]`, a HEAD
request receives exactly the headers and status of the equivalent GET —
the method is only consulted after all headers are set — but it does not
perform zero chunk fetches: `GetFileStream` launches the producer
goroutine before checking `r.Method`, and the producer issues its first
`chunk` fetch before blocking forever on its first pipe write, so one
fetch is performed. -/
theorem C5_head_fetches_bug :
    (getFileStreamModel true true true
        (some { name := "a.bin", mimeType := "application/octet-stream", size := 2,
                partContents := [[10, 11]] }) none).headers =
      (getFileStreamModel true false true
        (some { name := "a.bin", mimeType := "application/octet-stream", size := 2,
                partContents := [[10, 11]] }) none).headers ∧
    (getFileStreamModel true true true
        (some { name := "a.bin", mimeType := "application/octet-stream", size := 2,
                partContents := [[10, 11]] }) none).status =
      (getFileStreamModel true false true
        (some { name := "a.bin", mimeType := "application/octet-stream", size := 2,
                partContents := [[10, 11]] }) none).status ∧
    headFetchCount (getFileStreamModel true true true
        (some { name := "a.bin", mimeType := "application/octet-stream", size := 2,
                partContents := [[10, 11]] }) none).producerTrace = 1 := by
  refine ⟨by decide, by decide, by decide⟩

/-- Claim C6 (code bug): in multi-client mode the selected client's
`Workload` is incremented at stream start, but the decrement is deferred
only at the very end of `GetFileStream`; on the early return taken when
the file lookup fails, the defer was never registered, so the counter
does not return to its pre-request value: the net change is `+1`. -/
theorem C6_workload_leak :
    (getFileStreamModel true false true none none).workloadDelta = 1 := by
  decide

/-- Claim C9 (code bug): with the pipe closed (every `writer.Write`
returning an error) and a part stream over `[0,3]` with transfer unit 2,
the producer's first write reports the closed pipe, yet the loop — which
discards `writer.Write`'s result and checks no cancellation signal —
issues the second fetch anyway and finishes without error. -/
theorem C9_fetch_after_closed_pipe :
    streamFilePartW (fun o => if o = 0 then [10, 11] else if o = 2 then [12, 13] else [])
        (fun _ => true) 0 3 2 =
      ([EvW.fetch 0, EvW.write [10, 11] true, EvW.fetch 2, EvW.write [12, 13] true],
        false) ∧
    hasFetchAfterFailedWrite
      (streamFilePartW (fun o => if o = 0 then [10, 11] else if o = 2 then [12, 13] else [])
        (fun _ => true) 0 3 2).1 = true := by
  refine ⟨by decide, by decide⟩

/-- Claim C4 is false as stated, in two ways.  First, not every response
of the stream endpoint carries a `Content-Disposition` header: the 400
response produced through `http.Error` when the file lookup fails has
none.  Second, a request without a `Range` header is not always answered
with the full body: for the file with parts sized `[2,1]` (total size 3)
the range slicer's `endPartNumber = ceil(2/2) = 1` drops the last part
and rewrites part 0's `End` to 0, so the 200 response body is the single
byte `[10]` instead of `[10,11,12]`. -/
theorem C4_counterexample :
    hasHeader (getFileStreamModel false false true none none).headers
      "Content-Disposition" = false ∧
    (getFileStreamModel false false true
        (some { name := "f", mimeType := "m", size := 3,
                partContents := [[10, 11], [12]] }) none).status = 200 ∧
    (getFileStreamModel false false true
        (some { name := "f", mimeType := "m", size := 3,
                partContents := [[10, 11], [12]] }) none).body = [10] ∧
    ([10] : List Nat) ≠ [10, 11, 12] ∧
    [[10, 11], [12]].flatten = [10, 11, 12] := by
  refine ⟨by decide, by decide, by decide, by decide, by decide⟩

/-- Claim C7 is false for the empty-part-list case: a file record with an
empty part list does not produce a 400-class validation error — it makes
`rangedParts` index `parts[0]` out of range, a runtime panic surfaced as
a 500-class response (still with zero body bytes).  Here the file has
size 5, an empty part list, and the valid requested range `[0,4]`. -/
theorem C7_counterexample :
    (getFileStreamModel false false true
        (some { name := "f", mimeType := "m", size := 5, partContents := [] })
        (some (0, 4))).panicked = true ∧
    (getFileStreamModel false false true
        (some { name := "f", mimeType := "m", size := 5, partContents := [] })
        (some (0, 4))).status = 500 ∧
    ¬(400 ≤ (getFileStreamModel false false true
        (some { name := "f", mimeType := "m", size := 5, partContents := [] })
        (some (0, 4))).status ∧
      (getFileStreamModel false false true
        (some { name := "f", mimeType := "m", size := 5, partContents := [] })
        (some (0, 4))).status < 500) ∧
    (getFileStreamModel false false true
        (some { name := "f", mimeType := "m", size := 5, partContents := [] })
        (some (0, 4))).body = [] := by
  refine ⟨by decide, by decide, by decide, by decide⟩

/-- Claim C3 (confirmed): over a part stream `[start, end_]` with
transfer unit `U > 0`, when every expected block is non-empty (and long
enough for its cut), `streamFilePart` performs exactly the fetches at the
`U`-aligned offsets `floor(start/U)*U, +U, +2U, ...` — one per expected
block, i.e. `ceil((end+1)/U) - floor(start/U)` of them — each followed by
the write of the block trimmed per `trimBlock`: leading bytes before
`start` dropped from the first block, trailing bytes after `end_` dropped
from the last, both cuts when the block is first and last at once. -/
theorem C3_streamFilePart_fetch_pattern (fetch : Nat → List Nat) (start end_ U : Nat)
    (hU : 0 < U) (hse : start ≤ end_)
    (hok : ∀ k, k < partCountOf start end_ U → okBlock fetch start end_ U k) :
    streamFilePart fetch start end_ U =
      (expectedTrace fetch (start % U) (end_ % U + 1) (partCountOf start end_ U) U
        (start - start % U) 0 (partCountOf start end_ U), false) ∧
    (fetchesOf (streamFilePart fetch start end_ U).1).length =
      ceilDiv (end_ + 1) U - start / U := by
  have hN1 := partCountOf_pos start end_ U hU hse
  have hfl : partCountOf start end_ U = 1 → start % U ≤ end_ % U + 1 :=
    fun h => fPC_le_lPC_of_one start end_ U hU hse h
  have hok' : ∀ k, k < partCountOf start end_ U →
      0 < (fetch ((start - start % U) + k * U)).length ∧
      (k = 0 → start % U ≤ (fetch ((start - start % U) + k * U)).length) ∧
      (k = partCountOf start end_ U - 1 →
        end_ % U + 1 ≤ (fetch ((start - start % U) + k * U)).length) :=
    fun k hk => hok k hk
  have hmain := streamLoop_run fetch (start % U) (end_ % U + 1)
    (partCountOf start end_ U) U (start - start % U) hfl hok'
    (partCountOf start end_ U + 1) 1 (by omega) hN1 (by omega)
  have h0 : start - start % U + (1 - 1) * U = start - start % U := by omega
  rw [h0] at hmain
  have h1 : partCountOf start end_ U + 1 - 1 = partCountOf start end_ U := by omega
  rw [h1] at hmain
  norm_num at hmain
  have hfirst : streamFilePart fetch start end_ U =
      (expectedTrace fetch (start % U) (end_ % U + 1) (partCountOf start end_ U) U
        (start - start % U) 0 (partCountOf start end_ U), false) := by
    rw [streamFilePart_eq]
    exact hmain
  refine ⟨hfirst, ?_⟩
  rw [hfirst]
  rw [fetchesOf_expectedTrace, partCountOf, sub_mod_div _ _ hU]

/-- Witness for C3: three full blocks of size 2 over the local range
`[1,4]`, fetched at offsets 0, 2 and 4, trimmed to `[1]`, `[2,3]`,
`[4]`. -/
theorem C3_witness :
    ((0 < 2 ∧ 1 ≤ 4) ∧ ∀ k, k < partCountOf 1 4 2 → okBlock (fun o => [o, o + 1]) 1 4 2 k) ∧
    ((streamFilePart (fun o => [o, o + 1]) 1 4 2 =
      (expectedTrace (fun o => [o, o + 1]) (1 % 2) (4 % 2 + 1) (partCountOf 1 4 2) 2
        (1 - 1 % 2) 0 (partCountOf 1 4 2), false) ∧
      (fetchesOf (streamFilePart (fun o => [o, o + 1]) 1 4 2).1).length =
        ceilDiv (4 + 1) 2 - 1 / 2) ∧
      streamFilePart (fun o => [o, o + 1]) 1 4 2 =
        ([Ev.fetch 0, Ev.write [1], Ev.fetch 2, Ev.write [2, 3],
          Ev.fetch 4, Ev.write [4]], false)) :=
  ⟨⟨⟨by decide, by decide⟩, by decide⟩,
    ⟨C3_streamFilePart_fetch_pattern (fun o => [o, o + 1]) 1 4 2 (by decide) (by decide)
      (by decide), by decide⟩⟩

/-- Claim C8 is false in its "only if" half: in the stream over `[0,5]`
with unit 2 (three expected blocks), the fetch of block 1 — not the last
expected block — returns empty, and the loop treats it as end-of-data
anyway: it stops fetching (2 of 3 fetches performed) and returns success
with no error of any kind. -/
theorem C8_counterexample :
    streamFilePart (fun o => if o = 0 then [1, 2] else []) 0 5 2 =
      ([Ev.fetch 0, Ev.write [1, 2], Ev.fetch 2], false) ∧
    partCountOf 0 5 2 = 3 ∧
    ((fun o => if o = 0 then [1, 2] else []) (blockOffset 0 2 1)).length = 0 ∧
    (fetchesOf (streamFilePart (fun o => if o = 0 then [1, 2] else []) 0 5 2).1).length = 2 := by
  refine ⟨by decide, by decide, by decide, by decide⟩

/-- Claim C8 as amended: an empty fetch result is treated as end-of-data
wherever it occurs — the loop breaks at once and `streamFilePart`
reports success.  When the empty result arrives at a block `j` strictly
before the last expected one (the earlier blocks streaming normally, no
block longer than the transfer unit), the stream therefore ends with
strictly fewer than `end_ - start + 1` bytes emitted: the short total
length is the only signal of the incomplete transfer the caller gets. -/
theorem C8_short_read_amended (fetch : Nat → List Nat) (start end_ U j : Nat)
    (hU : 0 < U) (hse : start ≤ end_)
    (hlen : ∀ k, k < j → (fetch (blockOffset start U k)).length ≤ U)
    (hj : j + 1 < partCountOf start end_ U)
    (hok : ∀ k, k < j →
      0 < (fetch (blockOffset start U k)).length ∧
      (k = 0 → start % U ≤ (fetch (blockOffset start U k)).length))
    (hempty : (fetch (blockOffset start U j)).length = 0) :
    streamFilePart fetch start end_ U =
      (expectedTrace fetch (start % U) (end_ % U + 1) (partCountOf start end_ U) U
        (start - start % U) 0 j ++ [Ev.fetch (blockOffset start U j)], false) ∧
    (emitted (streamFilePart fetch start end_ U).1).length < end_ - start + 1 := by
  have heq := streamLoop_stop fetch (start % U) (end_ % U + 1)
    (partCountOf start end_ U) U (start - start % U) j (by omega) hok hempty
    (partCountOf start end_ U + 1) 1 (by omega) (by omega) (by omega)
  have h0 : start - start % U + (1 - 1) * U = start - start % U := by omega
  rw [h0] at heq
  norm_num at heq
  have hfirst : streamFilePart fetch start end_ U =
      (expectedTrace fetch (start % U) (end_ % U + 1) (partCountOf start end_ U) U
        (start - start % U) 0 j ++ [Ev.fetch (blockOffset start U j)], false) := by
    rw [streamFilePart_eq]
    exact heq
  refine ⟨hfirst, ?_⟩
  rw [hfirst]
  have hw : emitted (expectedTrace fetch (start % U) (end_ % U + 1)
      (partCountOf start end_ U) U (start - start % U) 0 j ++
        [Ev.fetch (blockOffset start U j)]) =
      emitted (expectedTrace fetch (start % U) (end_ % U + 1)
        (partCountOf start end_ U) U (start - start % U) 0 j) := by
    rw [emitted, writesOf_append]
    simp [writesOf, emitted]
  simp only [hw]
  have hle := emitted_expectedTrace_le fetch (start % U) (end_ % U + 1)
    (partCountOf start end_ U) U (start - start % U) j 0
    (fun k _ h2 => hlen k (by omega))
  have hA := Nat.div_add_mod start U
  have hB := Nat.div_add_mod end_ U
  have hC : start % U < U := Nat.mod_lt _ hU
  have hNq := partCountOf_eq start end_ U hU
  have hd : start / U ≤ end_ / U := Nat.div_le_div_right hse
  have h5 : end_ / U = (partCountOf start end_ U - 1) + start / U := by omega
  have h6 : U * (end_ / U) = U * (partCountOf start end_ U - 1) + U * (start / U) := by
    rw [h5, Nat.mul_add]
  have h9 : U * (end_ / U) ≤ end_ := Nat.le.intro hB
  have h10 : j + 1 ≤ partCountOf start end_ U - 1 := by omega
  have h11 : U * (j + 1) ≤ U * (partCountOf start end_ U - 1) := Nat.mul_le_mul_left U h10
  have h12 : U * (j + 1) = U * j + U := by ring
  have h13 : j * U = U * j := Nat.mul_comm _ _
  omega

/-- Witness for C8: three expected blocks over `[0,5]` with unit 2;
block 0 streams normally, block 1 fetches empty, and only 2 of the 6
promised bytes come out. -/
theorem C8_witness :
    ((0 < 2 ∧ 0 ≤ 5) ∧
      (∀ k, k < 1 → ((fun o => if o = 0 then [1, 2] else ([] : List Nat))
          (blockOffset 0 2 k)).length ≤ 2) ∧
      1 + 1 < partCountOf 0 5 2 ∧
      (∀ k, k < 1 →
        0 < ((fun o => if o = 0 then [1, 2] else ([] : List Nat)) (blockOffset 0 2 k)).length ∧
        (k = 0 → 0 % 2 ≤ ((fun o => if o = 0 then [1, 2] else ([] : List Nat))
          (blockOffset 0 2 k)).length)) ∧
      ((fun o => if o = 0 then [1, 2] else ([] : List Nat)) (blockOffset 0 2 1)).length = 0) ∧
    (streamFilePart (fun o => if o = 0 then [1, 2] else ([] : List Nat)) 0 5 2 =
      (expectedTrace (fun o => if o = 0 then [1, 2] else ([] : List Nat)) (0 % 2) (5 % 2 + 1)
        (partCountOf 0 5 2) 2 (0 - 0 % 2) 0 1 ++ [Ev.fetch (blockOffset 0 2 1)], false) ∧
      (emitted (streamFilePart (fun o => if o = 0 then [1, 2] else ([] : List Nat)) 0 5 2).1).length <
        5 - 0 + 1) :=
  ⟨⟨⟨by decide, by decide⟩, by decide, by decide, by decide, by decide⟩,
    C8_short_read_amended (fun o => if o = 0 then [1, 2] else ([] : List Nat)) 0 5 2 1
      (by decide) (by decide) (by decide) (by decide) (by decide) (by decide)⟩

/-- Claim C10 is false in its "only if" direction: over `[0,2]` with
unit 2 (two expected blocks, `firstPartCut = 0`, `lastPartCut = 1`), the
first — pre-last — block comes back with a single byte rather than the
full 2, yet every slice stays in bounds (`r[0:]` on one byte, `r[:1]` on
two): in-boundedness does not require the claimed block lengths. -/
theorem C10_counterexample :
    ¬((streamFilePart (fun o => if o = 0 then [5] else if o = 2 then [6, 7] else [])
          0 2 2).2 = false ↔
      ((∀ k, k < partCountOf 0 2 2 - 1 →
          ((fun o => if o = 0 then [5] else if o = 2 then [6, 7] else [])
            (blockOffset 0 2 k)).length = 2) ∧
        2 % 2 + 1 ≤ ((fun o => if o = 0 then [5] else if o = 2 then [6, 7] else [])
          (blockOffset 0 2 (partCountOf 0 2 2 - 1))).length)) := by
  decide

/-- Claim C10 as amended: the claimed block-length condition is
sufficient but not necessary.  If every fetched block before the last
expected one has exactly the transfer unit's length and the last block is
either empty or at least `lastPartCut = end_ % U + 1` bytes long, the
three trimming slice operations stay in bounds — the panic branch of the
embedding is unreachable.  It is not an equivalence, and short non-empty
blocks can drive a slice out of range: with a single expected block of 2
bytes and `lastPartCut = 3`, `r[firstPartCut:lastPartCut]` panics. -/
theorem C10_bounds_amended :
    (∀ (fetch : Nat → List Nat) (start end_ U : Nat), 0 < U → start ≤ end_ →
      (∀ k, k < partCountOf start end_ U - 1 →
        (fetch (blockOffset start U k)).length = U) →
      ((fetch (blockOffset start U (partCountOf start end_ U - 1))).length = 0 ∨
        end_ % U + 1 ≤ (fetch (blockOffset start U (partCountOf start end_ U - 1))).length) →
      (streamFilePart fetch start end_ U).2 = false) ∧
    (streamFilePart (fun o => if o = 0 then [7, 8] else []) 0 2 4).2 = true := by
  constructor
  · intro fetch start end_ U hU hse hfull hlast
    simp only [blockOffset] at hfull hlast
    have hN1 := partCountOf_pos start end_ U hU hse
    have hC : start % U < U := Nat.mod_lt _ hU
    rcases hlast with hlast | hlast
    · -- the last block fetches empty: the loop breaks there, no slice runs on it
      have hok : ∀ k, k < partCountOf start end_ U - 1 →
          0 < (fetch (start - start % U + k * U)).length ∧
          (k = 0 → start % U ≤ (fetch (start - start % U + k * U)).length) := by
        intro k hk
        have := hfull k hk
        exact ⟨by omega, fun _ => by omega⟩
      have heq := streamLoop_stop fetch (start % U) (end_ % U + 1)
        (partCountOf start end_ U) U (start - start % U)
        (partCountOf start end_ U - 1) (by omega) hok hlast
        (partCountOf start end_ U + 1) 1 (by omega) (by omega) (by omega)
      have h0 : start - start % U + (1 - 1) * U = start - start % U := by omega
      rw [h0] at heq
      rw [streamFilePart_eq, heq]
    · -- the last block is long enough for the trailing cut
      have hfl : partCountOf start end_ U = 1 → start % U ≤ end_ % U + 1 :=
        fun h => fPC_le_lPC_of_one start end_ U hU hse h
      have hok : ∀ k, k < partCountOf start end_ U →
          0 < (fetch (start - start % U + k * U)).length ∧
          (k = 0 → start % U ≤ (fetch (start - start % U + k * U)).length) ∧
          (k = partCountOf start end_ U - 1 →
            end_ % U + 1 ≤ (fetch (start - start % U + k * U)).length) := by
        intro k hk
        rcases Nat.lt_or_ge k (partCountOf start end_ U - 1) with hlt | hge
        · have := hfull k hlt
          exact ⟨by omega, fun _ => by omega, fun hkN => by omega⟩
        · have hk' : k = partCountOf start end_ U - 1 := by omega
          subst hk'
          refine ⟨by omega, fun hk0 => ?_, fun _ => hlast⟩
          have h1 : partCountOf start end_ U = 1 := by omega
          have := hfl h1
          omega
      have heq := streamLoop_run fetch (start % U) (end_ % U + 1)
        (partCountOf start end_ U) U (start - start % U) hfl hok
        (partCountOf start end_ U + 1) 1 (by omega) hN1 (by omega)
      have h0 : start - start % U + (1 - 1) * U = start - start % U := by omega
      rw [h0] at heq
      rw [streamFilePart_eq, heq]
  · decide

/-- Witness for C10's sufficiency direction: two full blocks of length 2
over `[0,3]` — all slices in bounds, no panic. -/
theorem C10_witness :
    ((0 < 2 ∧ 0 ≤ 3) ∧
      (∀ k, k < partCountOf 0 3 2 - 1 →
        ((fun o => [o, o + 1]) (blockOffset 0 2 k)).length = 2) ∧
      (((fun o => [o, o + 1]) (blockOffset 0 2 (partCountOf 0 3 2 - 1))).length = 0 ∨
        3 % 2 + 1 ≤ ((fun o => [o, o + 1]) (blockOffset 0 2 (partCountOf 0 3 2 - 1))).length)) ∧
    (streamFilePart (fun o => [o, o + 1]) 0 3 2).2 = false :=
  ⟨⟨⟨by decide, by decide⟩, by decide, by decide⟩,
    C10_bounds_amended.1 (fun o => [o, o + 1]) 0 3 2 (by decide) (by decide)
      (by decide) (by decide)⟩

/-- Claim C4 as amended: every successful streaming response — not every
response — carries `Content-Type`, `Content-Length` and
`Content-Disposition`.  Whenever the range slicer does not panic: a
request without a `Range` header is answered 200 with exactly
`Accept-Ranges: bytes` and those three headers, `Content-Length` being
the full `totalSize`; a request whose range parses to `[s,e]` is
answered 206 with additionally `Content-Range: bytes s-e/totalSize` and
`Content-Length = e-s+1`.  (Error responses go through `http.Error` and
carry no `Content-Disposition`; the 200 body equals the full file only
when the slicer selects every byte, which C1 shows can fail.) -/
theorem C4_headers_amended :
    (∀ (multiClient isHead : Bool) (file : FileMeta) (sel : List Part),
      rangedParts (mkParts file.partContents) 0 (file.size - 1) = some sel →
      (getFileStreamModel multiClient isHead true (some file) none).status = 200 ∧
      (getFileStreamModel multiClient isHead true (some file) none).headers =
        [("Accept-Ranges", "bytes"), ("Content-Type", file.mimeType),
         ("Content-Length", toString (file.size - 1 + 1)),
         ("Content-Disposition", "inline; filename=\"" ++ file.name ++ "\"")]) ∧
    (∀ (multiClient isHead : Bool) (file : FileMeta) (s e : Nat) (sel : List Part),
      s ≤ e → e < file.size →
      rangedParts (mkParts file.partContents) s e = some sel →
      (getFileStreamModel multiClient isHead true (some file) (some (s, e))).status = 206 ∧
      (getFileStreamModel multiClient isHead true (some file) (some (s, e))).headers =
        [("Accept-Ranges", "bytes"),
         ("Content-Range",
           "bytes " ++ toString s ++ "-" ++ toString e ++ "/" ++ toString file.size),
         ("Content-Type", file.mimeType),
         ("Content-Length", toString (e - s + 1)),
         ("Content-Disposition", "inline; filename=\"" ++ file.name ++ "\"")]) := by
  constructor
  · intro multiClient isHead file sel hsel
    simp [getFileStreamModel, finishStream, setHeader, hsel]
  · intro multiClient isHead file s e sel hs he hsel
    simp [getFileStreamModel, finishStream, setHeader, parseRange, hs, he, hsel]

/-- Witness for C4: the two-part file `[[1,2],[3,4]]` of size 4, asked
without a range and with the range `[1,2]`. -/
theorem C4_witness :
    ((rangedParts (mkParts [[1, 2], [3, 4]]) 0 (4 - 1) =
        some [{ content := [1, 2], size := 2, start := 0, end_ := 1 },
              { content := [3, 4], size := 2, start := 0, end_ := 1 }] ∧
      (getFileStreamModel false false true
        (some { name := "w", mimeType := "text/plain", size := 4,
                partContents := [[1, 2], [3, 4]] }) none).status = 200 ∧
      (getFileStreamModel false false true
        (some { name := "w", mimeType := "text/plain", size := 4,
                partContents := [[1, 2], [3, 4]] }) none).headers =
        [("Accept-Ranges", "bytes"), ("Content-Type", "text/plain"),
         ("Content-Length", toString (4 - 1 + 1)),
         ("Content-Disposition", "inline; filename=\"" ++ "w" ++ "\"")]) ∧
      ((1 ≤ 2 ∧ 2 < 4) ∧
        rangedParts (mkParts [[1, 2], [3, 4]]) 1 2 =
          some [{ content := [1, 2], size := 2, start := 1, end_ := 0 }] ∧
        (getFileStreamModel false false true
          (some { name := "w", mimeType := "text/plain", size := 4,
                  partContents := [[1, 2], [3, 4]] }) (some (1, 2))).status = 206 ∧
        (getFileStreamModel false false true
          (some { name := "w", mimeType := "text/plain", size := 4,
                  partContents := [[1, 2], [3, 4]] }) (some (1, 2))).headers =
          [("Accept-Ranges", "bytes"),
           ("Content-Range", "bytes " ++ toString 1 ++ "-" ++ toString 2 ++ "/" ++ toString 4),
           ("Content-Type", "text/plain"),
           ("Content-Length", toString (2 - 1 + 1)),
           ("Content-Disposition", "inline; filename=\"" ++ "w" ++ "\"")])) :=
  ⟨⟨by decide,
      C4_headers_amended.1 false false
        { name := "w", mimeType := "text/plain", size := 4, partContents := [[1, 2], [3, 4]] }
        [{ content := [1, 2], size := 2, start := 0, end_ := 1 },
         { content := [3, 4], size := 2, start := 0, end_ := 1 }] (by decide)⟩,
    ⟨⟨by decide, by decide⟩, by decide,
      C4_headers_amended.2 false false
        { name := "w", mimeType := "text/plain", size := 4, partContents := [[1, 2], [3, 4]] }
        1 2 [{ content := [1, 2], size := 2, start := 1, end_ := 0 }]
        (by decide) (by decide) (by decide)⟩⟩

/-- Claim C7 as amended: a requested range with `start > end` or
`end ≥ totalSize` is rejected by the (spec-modelled) range parser with a
400 validation error before any byte is produced — no body bytes, no
producer, no fetch.  An empty part list, however, does not produce a
validation error: it makes `rangedParts` panic (an index out of range on
`parts[0]`), surfaced as a 500-class failure, still with zero body
bytes. -/
theorem C7_validation_amended :
    (∀ (multiClient isHead : Bool) (file : FileMeta) (s e : Nat),
      ¬(s ≤ e ∧ e < file.size) →
      (getFileStreamModel multiClient isHead true (some file) (some (s, e))).status = 400 ∧
      (getFileStreamModel multiClient isHead true (some file) (some (s, e))).body = [] ∧
      (getFileStreamModel multiClient isHead true (some file)
        (some (s, e))).producerTrace = []) ∧
    (∀ (multiClient isHead : Bool) (file : FileMeta) (s e : Nat),
      file.partContents = [] → s ≤ e → e < file.size →
      (getFileStreamModel multiClient isHead true (some file) (some (s, e))).panicked = true ∧
      (getFileStreamModel multiClient isHead true (some file) (some (s, e))).status = 500 ∧
      (getFileStreamModel multiClient isHead true (some file) (some (s, e))).body = []) := by
  constructor
  · intro multiClient isHead file s e hbad
    simp [getFileStreamModel, parseRange, hbad, httpErrorResp]
  · intro multiClient isHead file s e hparts hs he
    simp [getFileStreamModel, finishStream, parseRange, hs, he, hparts, mkParts, rangedParts]

/-- Witness for C7: a size-3 file asked for the inverted range `[5,2]`
(400, nothing produced), and a size-5 file with no parts asked for the
valid range `[0,4]` (panic, 500, nothing produced). -/
theorem C7_witness :
    ((¬((5 : Nat) ≤ 2 ∧ 2 < 3) ∧
      (getFileStreamModel true false true
        (some { name := "f", mimeType := "m", size := 3, partContents := [[1, 2], [3]] })
        (some (5, 2))).status = 400 ∧
      (getFileStreamModel true false true
        (some { name := "f", mimeType := "m", size := 3, partContents := [[1, 2], [3]] })
        (some (5, 2))).body = [] ∧
      (getFileStreamModel true false true
        (some { name := "f", mimeType := "m", size := 3, partContents := [[1, 2], [3]] })
        (some (5, 2))).producerTrace = []) ∧
      (((([] : List (List Nat)) = []) ∧ (0 : Nat) ≤ 4 ∧ 4 < 5) ∧
        (getFileStreamModel true false true
          (some { name := "g", mimeType := "m", size := 5, partContents := [] })
          (some (0, 4))).panicked = true ∧
        (getFileStreamModel true false true
          (some { name := "g", mimeType := "m", size := 5, partContents := [] })
          (some (0, 4))).status = 500 ∧
        (getFileStreamModel true false true
          (some { name := "g", mimeType := "m", size := 5, partContents := [] })
          (some (0, 4))).body = [])) :=
  ⟨⟨by decide,
      C7_validation_amended.1 true false
        { name := "f", mimeType := "m", size := 3, partContents := [[1, 2], [3]] }
        5 2 (by decide)⟩,
    ⟨⟨by decide, by decide, by decide⟩,
      C7_validation_amended.2 true false
        { name := "g", mimeType := "m", size := 5, partContents := [] }
        0 4 (by decide) (by decide) (by decide)⟩⟩

end Teldrive
